import Mathlib

/-!
# Verification of the QuickTime bounded-window reader and box scanner

Shallow embedding of `src/main.rs`: a bounded, cursor-based window (`Input`)
over a byte-providing backing store, and the ISO-BMFF box scanner
(`quicktime_scan_for_box`) built on it.

Modelling conventions:
* Bytes are natural numbers; a file is a `List ℕ` together with the physical
  read position of the open handle (`Store`).  `File::read_exact` and
  `Read::take(..).read_to_string` read from the *physical* position, exactly
  as in the source (the window's `cursor` is pure bookkeeping; only `seek`
  repositions the handle).
* Rust `u64` arithmetic is modelled as `ℕ` arithmetic reduced `% 2 ^ 64`
  (wrap-around, the defined behaviour when debug overflow assertions are
  off; debug builds would panic at the same inputs).  The reductions appear
  exactly where the source performs `u64` additions/subtractions.
* `io::Result` becomes `Except Err`; the error kinds actually constructed by
  the program are `Err.eof` (`ErrorKind::UnexpectedEof`) and `Err.shortRead`
  (`ErrorKind::Other`, "string read result is shorter than expected").
  `Err.notFound` mirrors `ErrorKind::NotFound`, which the program never
  constructs.  The `panic!("not implemented")` arms are modelled by the
  distinguished outcome `Err.panicNotImplemented`.
* Rust `String`s read from the file are modelled as the byte lists read
  (the inputs in question are 4-byte ASCII tags; UTF-8 decoding is the
  identity on them).
* Methods taking `&mut self` are state-passing functions returning the
  result together with the updated store and window.
-/

namespace QuickTimeExperiment

/-- Modulus of Rust `u64` arithmetic. -/
def W64 : ℕ := 2 ^ 64

/-- Wrapping `u64` addition (release-mode overflow semantics). -/
def add64 (a b : ℕ) : ℕ := (a + b) % W64

/-- Wrapping `u64` subtraction (release-mode overflow semantics). -/
def sub64 (a b : ℕ) : ℕ := (a % W64 + (W64 - b % W64)) % W64

/-- `pub enum Endianness { Big, Little }` -/
inductive Endianness where
  | Big
  | Little
deriving DecidableEq, Repr

/-- The error kinds of the embedding (see the module docstring). -/
inductive Err where
  | eof
  | shortRead
  | notFound
  | panicNotImplemented
deriving DecidableEq, Repr

/-- `enum InputData` — which kind of source a window borrows.  The payload
(the `&File` respectively the `&Input`) lives in the ambient `Store`; the
embedding keeps only the discriminant, which is all the code inspects. -/
inductive InputData where
  | file
  | input
deriving DecidableEq, Repr

/-- The open file: its bytes and the handle's current physical position. -/
structure Store where
  data : List ℕ
  pos : ℕ
deriving DecidableEq, Repr

/-- `pub struct Input` — a bounded window over the backing store. -/
structure Input where
  input : InputData
  offset : ℕ
  limit : ℕ
  cursor : ℕ
deriving DecidableEq, Repr

/-- `u32::from_be_bytes` / `u64::from_be_bytes` on a byte list. -/
def fromBeBytes (bs : List ℕ) : ℕ := bs.foldl (fun a b => a * 256 + b) 0

/-- `from_le_bytes` is `from_be_bytes` of the reversed buffer. -/
def fromLeBytes (bs : List ℕ) : ℕ := fromBeBytes bs.reverse

/-- `File::read_exact` on an `n`-byte buffer: succeeds when `n` bytes are
physically available from the current position, consuming them; otherwise
fails with `UnexpectedEof` after consuming what was left. -/
def readExact (s : Store) (n : ℕ) : Except Err (List ℕ) × Store :=
  if s.pos + n ≤ s.data.length then
    (Except.ok ((s.data.drop s.pos).take n), { s with pos := s.pos + n })
  else
    (Except.error Err.eof, { s with pos := max s.pos s.data.length })

/-- `Read::take(len).read_to_string`: reads up to `len` bytes from the
physical position, returning the bytes read (count = length of the list). -/
def takeReadToString (s : Store) (len : ℕ) : List ℕ × Store :=
  let k := min len (s.data.length - s.pos)
  (((s.data.drop s.pos).take k), { s with pos := s.pos + k })

/-- `Input::create` — root window spanning the whole file, cursor at 0. -/
def create (s : Store) : Input :=
  { input := InputData.file, offset := 0, limit := s.data.length, cursor := 0 }

/-- `Input::read_u32` — bounds check `cursor + 4 >= limit` (with the
source's off-by-one), then 4 physical bytes, cursor advances by 4. -/
def read_u32 (s : Store) (w : Input) (bo : Endianness) :
    Except Err ℕ × Store × Input :=
  if w.limit ≤ add64 w.cursor 4 then
    (Except.error Err.eof, s, w)
  else
    match w.input with
    | InputData.input => (Except.error Err.panicNotImplemented, s, w)
    | InputData.file =>
      match readExact s 4 with
      | (Except.error e, s') => (Except.error e, s', w)
      | (Except.ok buf, s') =>
        let w' := { w with cursor := add64 w.cursor 4 }
        match bo with
        | Endianness.Big => (Except.ok (fromBeBytes buf), s', w')
        | Endianness.Little => (Except.ok (fromLeBytes buf), s', w')

/-- `Input::read_u64` — as `read_u32` with 8 bytes. -/
def read_u64 (s : Store) (w : Input) (bo : Endianness) :
    Except Err ℕ × Store × Input :=
  if w.limit ≤ add64 w.cursor 8 then
    (Except.error Err.eof, s, w)
  else
    match w.input with
    | InputData.input => (Except.error Err.panicNotImplemented, s, w)
    | InputData.file =>
      match readExact s 8 with
      | (Except.error e, s') => (Except.error e, s', w)
      | (Except.ok buf, s') =>
        let w' := { w with cursor := add64 w.cursor 8 }
        match bo with
        | Endianness.Big => (Except.ok (fromBeBytes buf), s', w')
        | Endianness.Little => (Except.ok (fromLeBytes buf), s', w')

/-- `Input::read_string` — bounds check `cursor + len >= limit` (same
off-by-one), then up to `len` physical bytes; a short read fails with the
"shorter than expected" error, leaving the cursor untouched. -/
def read_string (s : Store) (w : Input) (len : ℕ) :
    Except Err (List ℕ) × Store × Input :=
  if w.limit ≤ add64 w.cursor len then
    (Except.error Err.eof, s, w)
  else
    match w.input with
    | InputData.input => (Except.error Err.panicNotImplemented, s, w)
    | InputData.file =>
      match takeReadToString s len with
      | (buffer, s') =>
        if buffer.length < len then
          (Except.error Err.shortRead, s', w)
        else
          (Except.ok buffer, s', { w with cursor := add64 w.cursor len })

/-- `Input::seek` — fails when `pos >= limit`, otherwise repositions the
handle to `offset + pos` and sets the cursor. -/
def seek (s : Store) (w : Input) (pos : ℕ) :
    Except Err Unit × Store × Input :=
  if w.limit ≤ pos then
    (Except.error Err.eof, s, w)
  else
    match w.input with
    | InputData.input => (Except.error Err.panicNotImplemented, s, w)
    | InputData.file =>
      (Except.ok (), { s with pos := add64 w.offset pos }, { w with cursor := pos })

/-- `Input::ff` — `seek(cursor + len)` (u64 addition wraps). -/
def ff (s : Store) (w : Input) (len : ℕ) : Except Err Unit × Store × Input :=
  seek s w (add64 w.cursor len)

/-- `Input::section` — child window anchored at `offset + cursor`, limit
`len`, cursor 0, borrowing the same source.  The method takes `&mut self`
but writes no field, so the parent comes back unchanged (second
component). -/
def section' (w : Input) (len : ℕ) : Input × Input :=
  ({ input := w.input, offset := add64 w.offset w.cursor, limit := len, cursor := 0 }, w)

/-- `Input::quicktime_scan_for_box`, with an explicit fuel bounding the
number of loop iterations; `none` means the fuel ran out (the loop has not
finished after that many iterations).  Everything else is a verbatim
translation of the loop body: read a 32-bit big-endian size, a 4-byte type,
the large-box 64-bit size when the size field is 1, apply the `- 8` / `- 16`
header adjustments (wrapping, as unchecked u64 subtraction), compare type
and, when requested, the two UUID halves, and otherwise `ff` past the
payload. -/
def quicktime_scan_for_box (fuel : ℕ) (s : Store) (w : Input)
    (name : List ℕ) (uuid : Option (ℕ × ℕ)) :
    Option (Except Err Input × Store × Input) :=
  match fuel with
  | 0 => none
  | fuel + 1 =>
    match read_u32 s w Endianness.Big with
    | (Except.error e, s1, w1) => some (Except.error e, s1, w1)
    | (Except.ok sz, s1, w1) =>
      match read_string s1 w1 4 with
      | (Except.error e, s2, w2) => some (Except.error e, s2, w2)
      | (Except.ok box_type, s2, w2) =>
        -- `if box_length == 1 { box_length = read_u64 - 16 } else { box_length -= 8 }`
        match (if sz = 1 then
                 match read_u64 s2 w2 Endianness.Big with
                 | (Except.error e, s3, w3) => (Except.error e, s3, w3)
                 | (Except.ok large, s3, w3) => (Except.ok (sub64 large 16), s3, w3)
               else
                 ((Except.ok (sub64 sz 8) : Except Err ℕ), s2, w2)) with
      | (Except.error e, s3, w3) => some (Except.error e, s3, w3)
      | (Except.ok box_length, s3, w3) =>
        if box_type = name then
          match uuid with
          | none =>
            match section' w3 box_length with
            | (child, w4) => some (Except.ok child, s3, w4)
          | some u =>
            match read_u64 s3 w3 Endianness.Big with
            | (Except.error e, s4, w4) => some (Except.error e, s4, w4)
            | (Except.ok msb, s4, w4) =>
              match read_u64 s4 w4 Endianness.Big with
              | (Except.error e, s5, w5) => some (Except.error e, s5, w5)
              | (Except.ok lsb, s5, w5) =>
                if u.1 = msb ∧ u.2 = lsb then
                  match section' w5 (sub64 box_length 16) with
                  | (child, w6) => some (Except.ok child, s5, w6)
                else
                  -- UUID mismatch: fall through to the shared `ff` below,
                  -- with the UUID bytes already consumed.
                  match ff s5 w5 box_length with
                  | (Except.error e, s6, w6) => some (Except.error e, s6, w6)
                  | (Except.ok _, s6, w6) =>
                    quicktime_scan_for_box fuel s6 w6 name uuid
        else
          match ff s3 w3 box_length with
          | (Except.error e, s4, w4) => some (Except.error e, s4, w4)
          | (Except.ok _, s4, w4) =>
            quicktime_scan_for_box fuel s4 w4 name uuid

/-- The byte list of the 4-character tag `"uuid"`. -/
def uuidTag : List ℕ := [117, 117, 105, 100]

/-- `Input::quicktime_search_box`. -/
def quicktime_search_box (fuel : ℕ) (s : Store) (w : Input) (box_name : List ℕ) :
    Option (Except Err Input × Store × Input) :=
  quicktime_scan_for_box fuel s w box_name none

/-- `Input::quicktime_search_uuid_box`. -/
def quicktime_search_uuid_box (fuel : ℕ) (s : Store) (w : Input) (box_uuid : ℕ × ℕ) :
    Option (Except Err Input × Store × Input) :=
  quicktime_scan_for_box fuel s w uuidTag (some box_uuid)

/-- Big-endian 4-byte encoding of a `u32` value. -/
def be32 (n : ℕ) : List ℕ :=
  [n / 2 ^ 24 % 256, n / 2 ^ 16 % 256, n / 2 ^ 8 % 256, n % 256]

/-- Big-endian 8-byte encoding of a `u64` value. -/
def be64 (n : ℕ) : List ℕ :=
  [n / 2 ^ 56 % 256, n / 2 ^ 48 % 256, n / 2 ^ 40 % 256, n / 2 ^ 32 % 256,
   n / 2 ^ 24 % 256, n / 2 ^ 16 % 256, n / 2 ^ 8 % 256, n % 256]

/-! ## Arithmetic and encoding helper lemmas -/

theorem add64_small (a b : ℕ) (h : a + b < W64) : add64 a b = a + b := by
  unfold add64
  exact Nat.mod_eq_of_lt h

theorem sub64_of_le (a b : ℕ) (hb : b ≤ a) (ha : a < W64) : sub64 a b = a - b := by
  unfold sub64 W64 at *
  omega

theorem fromBe_be32 (n : ℕ) (h : n < 2 ^ 32) : fromBeBytes (be32 n) = n := by
  unfold fromBeBytes be32
  simp only [List.foldl]
  omega

theorem fromBe_be64 (n : ℕ) (h : n < 2 ^ 64) : fromBeBytes (be64 n) = n := by
  unfold fromBeBytes be64
  simp only [List.foldl]
  omega

/-! ## Claim theorems -/

/-- Store of exactly four bytes, for the boundary-read claim. -/
def store4 : Store := { data := [1, 2, 3, 4], pos := 0 }

/-- C1 (code_bug): the spec demands that a read of `n` bytes fail iff fewer
than `n` bytes remain, so the last valid read (`cursor + n = limit`) must
succeed.  The code's check is `cursor + 4 >= limit`: on a 4-byte window with
cursor 0 — exactly 4 bytes remaining, all physically present (`readExact`
succeeds on them) — `read_u32` nevertheless fails with the end-of-data
error. -/
theorem read_u32_rejects_last_valid_read :
    (create store4).limit - (create store4).cursor = 4 ∧
    readExact store4 4 = (Except.ok [1, 2, 3, 4], { data := [1, 2, 3, 4], pos := 4 }) ∧
    (read_u32 store4 (create store4) Endianness.Big).1 = Except.error Err.eof := by
  refine ⟨rfl, rfl, rfl⟩

/-- Least-significant UUID half used in the mismatch scenario; its
big-endian bytes are `[0,0,0,100,0,0,0,9]`. -/
def lsb2 : ℕ := 100 * 2 ^ 32 + 9

/-- Two sibling `uuid` boxes: the first with the non-matching UUID (5, 6),
the second with the wanted UUID (7, `lsb2`), plus one padding byte. -/
def dataC2 : List ℕ :=
  be32 24 ++ uuidTag ++ be64 5 ++ be64 6 ++
    be32 24 ++ uuidTag ++ be64 7 ++ be64 lsb2 ++ [0]

def storeC2 : Store := { data := dataC2, pos := 0 }

/-- C2 (code_bug): after a UUID mismatch the 16 UUID bytes have already been
consumed, so only the remaining payload (here 0 bytes) should be skipped and
the matching sibling at offset 24 found.  The code fast-forwards the full
payload length (16), overshooting the sibling's header by 16 bytes; it then
misparses the sibling's UUID bytes as a header and fails with end-of-data
instead of returning the matching box. -/
theorem uuid_mismatch_overskips_sibling :
    (dataC2.drop 24).take 24 = be32 24 ++ uuidTag ++ be64 7 ++ be64 lsb2 ∧
    quicktime_search_uuid_box 5 storeC2 (create storeC2) (7, lsb2) =
      some (Except.error Err.eof, { data := dataC2, pos := 48 },
        { input := InputData.file, offset := 0, limit := 49, cursor := 48 }) := by
  refine ⟨rfl, rfl⟩

/-- A single box whose declared size is 7 (< 8), followed by the tag
`moov` and a padding byte. -/
def dataC3 : List ℕ := be32 7 ++ [109, 111, 111, 118] ++ [0]

def storeC3 : Store := { data := dataC3, pos := 0 }

/-- C3 (code_bug): the spec demands that `size - 8` / `size - 16` be checked
and the payload validated against the window's remaining bytes before a
section is carved out.  With a declared size of 7 the unchecked u64
subtraction wraps to `2^64 - 1`, and the scanner carves a section of that
length out of a 9-byte window with only 1 byte remaining — no check fails.
(Debug builds panic at the same subtraction instead.) -/
theorem box_size_subtraction_wraps_unchecked :
    sub64 7 8 = 2 ^ 64 - 1 ∧
    quicktime_search_box 1 storeC3 (create storeC3) [109, 111, 111, 118] =
      some (Except.ok
          { input := InputData.file, offset := 8, limit := 2 ^ 64 - 1, cursor := 0 },
        { data := dataC3, pos := 8 },
        { input := InputData.file, offset := 0, limit := 9, cursor := 8 }) ∧
    (create storeC3).limit = 9 := by
  refine ⟨rfl, rfl, rfl⟩

/-- A single box with declared size 0 (type `free`) and padding: the
unchecked `0 - 8` wraps to `2^64 - 8`, and `ff` then wraps the cursor back
to the start of the same header. -/
def dataC4 : List ℕ := be32 0 ++ [102, 114, 101, 101] ++ [0, 0, 0, 0, 0, 0, 0, 0]

def storeC4 : Store := { data := dataC4, pos := 0 }

/-- One loop iteration of the scanner on `storeC4` returns to exactly the
initial store and window state (the wrapped `ff` seeks back to position 0). -/
theorem scan_step_size_zero (n : ℕ) :
    quicktime_scan_for_box (n + 1) storeC4 (create storeC4) [109, 111, 111, 118] none =
      quicktime_scan_for_box n storeC4 (create storeC4) [109, 111, 111, 118] none := rfl

/-- C4 (code_bug): the spec demands the scan terminate with a not-found
error once the window is exhausted.  On a window whose (absent-type) box
declares size 0, the wrapped payload length makes `ff` seek back to the
box's own header: the loop revisits an identical state forever, never
producing any error at all (the scan is non-terminating for every
iteration bound). -/
theorem scan_nonterminating_on_size_zero_box (fuel : ℕ) :
    quicktime_scan_for_box fuel storeC4 (create storeC4) [109, 111, 111, 118] none =
      none := by
  induction fuel with
  | zero => rfl
  | succ n ih => rw [scan_step_size_zero n]; exact ih

/-- Ten-byte store for the section/read-equivalence claim. -/
def storeC7 : Store := { data := [9, 8, 7, 6, 5, 4, 3, 2, 1, 0], pos := 0 }

/-- C7 (code_bug): the spec demands that `section(length)` followed by
reading `length` bytes from the child yield the same bytes as reading
`length` bytes directly from the parent.  The direct read succeeds and
yields the bytes, but the child's bounds check is `cursor + len >= limit`,
i.e. `len >= len`, which always holds — reading a section's full length
from it fails unconditionally with end-of-data. -/
theorem section_then_read_fails_on_exact_length :
    (read_string storeC7 (create storeC7) 4).1 = Except.ok [9, 8, 7, 6] ∧
    (read_string storeC7 ((section' (create storeC7) 4).1) 4).1 =
      Except.error Err.eof := by
  refine ⟨rfl, rfl⟩

/-- C6 (confirmed): `seek` fails with end-of-data exactly when
`position >= limit` — so `seek limit` fails while `seek (limit - 1)` and
`seek 0` succeed on any window with `limit ≥ 1` — and on success it sets the
cursor to the position and repositions the backing store to
`offset + position`.  (Stated for file-backed windows, the only kind the
program constructs; the overflow side condition keeps the u64 addition
`offset + position` below `2^64`.) -/
theorem seek_spec (s : Store) (w : Input) (p : ℕ)
    (hf : w.input = InputData.file) (h1 : 1 ≤ w.limit)
    (hov : w.offset + w.limit < W64) :
    ((seek s w p).1 = Except.error Err.eof ↔ w.limit ≤ p) ∧
    (seek s w w.limit).1 = Except.error Err.eof ∧
    (seek s w (w.limit - 1)).1 = Except.ok () ∧
    (seek s w 0).1 = Except.ok () ∧
    (p < w.limit →
      seek s w p =
        (Except.ok (), { s with pos := w.offset + p }, { w with cursor := p })) := by
  have key : ∀ q, q < w.limit →
      seek s w q = (Except.ok (), { s with pos := w.offset + q }, { w with cursor := q }) := by
    intro q hq
    unfold seek
    rw [if_neg (by omega), hf, add64_small w.offset q (by omega)]
  have keyFail : ∀ q, w.limit ≤ q → seek s w q = (Except.error Err.eof, s, w) := by
    intro q hq
    unfold seek
    rw [if_pos hq]
  refine ⟨⟨fun h => ?_, fun h => by rw [keyFail p h]⟩,
    by rw [keyFail w.limit le_rfl],
    by rw [key (w.limit - 1) (by omega)],
    by rw [key 0 (by omega)],
    fun h => key p h⟩
  by_contra hlt
  rw [key p (by omega)] at h
  exact Except.noConfusion h

/-- Witness for C6 at a concrete window: limit 2, seeking 1. -/
theorem seek_spec_witness :
    ((seek { data := [3, 4], pos := 0 } (create { data := [3, 4], pos := 0 }) 1).1 =
        Except.error Err.eof ↔
      (create { data := [3, 4], pos := 0 }).limit ≤ 1) ∧
    (seek { data := [3, 4], pos := 0 } (create { data := [3, 4], pos := 0 })
        (create { data := [3, 4], pos := 0 }).limit).1 = Except.error Err.eof ∧
    (seek { data := [3, 4], pos := 0 } (create { data := [3, 4], pos := 0 })
        ((create { data := [3, 4], pos := 0 }).limit - 1)).1 = Except.ok () ∧
    (seek { data := [3, 4], pos := 0 } (create { data := [3, 4], pos := 0 }) 0).1 =
      Except.ok () ∧
    (1 < (create { data := [3, 4], pos := 0 }).limit →
      seek { data := [3, 4], pos := 0 } (create { data := [3, 4], pos := 0 }) 1 =
        (Except.ok (), { data := [3, 4], pos := 1 },
          { input := InputData.file, offset := 0, limit := 2, cursor := 1 })) :=
  seek_spec { data := [3, 4], pos := 0 } (create { data := [3, 4], pos := 0 }) 1
    rfl (by decide) (by decide)

/-- C8 (confirmed): `section` returns a child window borrowing the same
source, anchored at `offset + cursor`, with limit the requested length and
cursor 0, and hands the parent back unchanged. -/
theorem section_spec (w : Input) (len : ℕ) (hov : w.offset + w.cursor < W64) :
    (section' w len).1.input = w.input ∧
    (section' w len).1.offset = w.offset + w.cursor ∧
    (section' w len).1.limit = len ∧
    (section' w len).1.cursor = 0 ∧
    (section' w len).2 = w :=
  ⟨rfl, add64_small w.offset w.cursor hov, rfl, rfl, rfl⟩

/-- Witness for C8 on a concrete parent window. -/
theorem section_spec_witness :
    (section' { input := InputData.file, offset := 3, limit := 9, cursor := 2 } 5).1.input =
        ({ input := InputData.file, offset := 3, limit := 9, cursor := 2 } : Input).input ∧
    (section' { input := InputData.file, offset := 3, limit := 9, cursor := 2 } 5).1.offset =
        3 + 2 ∧
    (section' { input := InputData.file, offset := 3, limit := 9, cursor := 2 } 5).1.limit = 5 ∧
    (section' { input := InputData.file, offset := 3, limit := 9, cursor := 2 } 5).1.cursor = 0 ∧
    (section' { input := InputData.file, offset := 3, limit := 9, cursor := 2 } 5).2 =
      { input := InputData.file, offset := 3, limit := 9, cursor := 2 } :=
  section_spec { input := InputData.file, offset := 3, limit := 9, cursor := 2 } 5 (by decide)

/-! ## Reachability of windows and unreachability of the panic arms -/

/-- Window states reachable from `create`: the root window, children derived
by `section`, and the window as updated by any of the reader operations. -/
inductive Reachable (s0 : Store) : Input → Prop where
  | root : Reachable s0 (create s0)
  | sec {w : Input} (len : ℕ) : Reachable s0 w → Reachable s0 (section' w len).1
  | post_read_u32 {w : Input} (s : Store) (bo : Endianness) :
      Reachable s0 w → Reachable s0 (read_u32 s w bo).2.2
  | post_read_u64 {w : Input} (s : Store) (bo : Endianness) :
      Reachable s0 w → Reachable s0 (read_u64 s w bo).2.2
  | post_read_string {w : Input} (s : Store) (len : ℕ) :
      Reachable s0 w → Reachable s0 (read_string s w len).2.2
  | post_seek {w : Input} (s : Store) (p : ℕ) :
      Reachable s0 w → Reachable s0 (seek s w p).2.2
  | post_ff {w : Input} (s : Store) (len : ℕ) :
      Reachable s0 w → Reachable s0 (ff s w len).2.2

theorem read_u32_input_eq (s : Store) (w : Input) (bo : Endianness) :
    (read_u32 s w bo).2.2.input = w.input := by
  unfold read_u32
  repeat' split
  all_goals rfl

theorem read_u64_input_eq (s : Store) (w : Input) (bo : Endianness) :
    (read_u64 s w bo).2.2.input = w.input := by
  unfold read_u64
  repeat' split
  all_goals rfl

theorem read_string_input_eq (s : Store) (w : Input) (len : ℕ) :
    (read_string s w len).2.2.input = w.input := by
  unfold read_string
  repeat' split
  all_goals rfl

theorem seek_input_eq (s : Store) (w : Input) (p : ℕ) :
    (seek s w p).2.2.input = w.input := by
  unfold seek
  repeat' split
  all_goals rfl

theorem ff_input_eq (s : Store) (w : Input) (len : ℕ) :
    (ff s w len).2.2.input = w.input := seek_input_eq s w (add64 w.cursor len)

theorem read_u32_no_panic (s : Store) (w : Input) (bo : Endianness)
    (hf : w.input = InputData.file) :
    (read_u32 s w bo).1 ≠ Except.error Err.panicNotImplemented := by
  unfold read_u32 readExact
  repeat' split
  all_goals first
    | (simp_all
       done)
    | (rename_i heq
       split at heq
       · simp_all
       · simp only [Prod.mk.injEq, Except.error.injEq] at heq
         obtain ⟨h1, h2⟩ := heq
         subst h1
         simp)

theorem read_u64_no_panic (s : Store) (w : Input) (bo : Endianness)
    (hf : w.input = InputData.file) :
    (read_u64 s w bo).1 ≠ Except.error Err.panicNotImplemented := by
  unfold read_u64 readExact
  repeat' split
  all_goals first
    | (simp_all
       done)
    | (rename_i heq
       split at heq
       · simp_all
       · simp only [Prod.mk.injEq, Except.error.injEq] at heq
         obtain ⟨h1, h2⟩ := heq
         subst h1
         simp)

theorem read_string_no_panic (s : Store) (w : Input) (len : ℕ)
    (hf : w.input = InputData.file) :
    (read_string s w len).1 ≠ Except.error Err.panicNotImplemented := by
  unfold read_string takeReadToString
  repeat' split
  all_goals simp_all

theorem seek_no_panic (s : Store) (w : Input) (p : ℕ)
    (hf : w.input = InputData.file) :
    (seek s w p).1 ≠ Except.error Err.panicNotImplemented := by
  unfold seek
  repeat' split
  all_goals simp_all

/-- C9 (confirmed): every window reachable from `create` by sections (and by
running the reader operations) still borrows the file source — the
`InputData::Input` variant is never constructed — and therefore none of the
`panic!("not implemented")` arms of `read_u32`, `read_u64`, `read_string`
or `seek` can be taken on such a window. -/
theorem reachable_file_backed_no_panic (s0 : Store) (w : Input) (h : Reachable s0 w) :
    w.input = InputData.file ∧
    (∀ (s : Store) (bo : Endianness),
      (read_u32 s w bo).1 ≠ Except.error Err.panicNotImplemented) ∧
    (∀ (s : Store) (bo : Endianness),
      (read_u64 s w bo).1 ≠ Except.error Err.panicNotImplemented) ∧
    (∀ (s : Store) (len : ℕ),
      (read_string s w len).1 ≠ Except.error Err.panicNotImplemented) ∧
    (∀ (s : Store) (p : ℕ),
      (seek s w p).1 ≠ Except.error Err.panicNotImplemented) := by
  have hfile : w.input = InputData.file := by
    induction h with
    | root => rfl
    | sec len _ ih => exact ih
    | post_read_u32 s bo _ ih => rw [read_u32_input_eq]; exact ih
    | post_read_u64 s bo _ ih => rw [read_u64_input_eq]; exact ih
    | post_read_string s len _ ih => rw [read_string_input_eq]; exact ih
    | post_seek s p _ ih => rw [seek_input_eq]; exact ih
    | post_ff s len _ ih => rw [ff_input_eq]; exact ih
  exact ⟨hfile,
    fun s bo => read_u32_no_panic s w bo hfile,
    fun s bo => read_u64_no_panic s w bo hfile,
    fun s len => read_string_no_panic s w len hfile,
    fun s p => seek_no_panic s w p hfile⟩

/-- Witness for C9 at the root window of a concrete store. -/
theorem reachable_file_backed_no_panic_witness :
    (create { data := [1, 2], pos := 0 }).input = InputData.file ∧
    (∀ (s : Store) (bo : Endianness),
      (read_u32 s (create { data := [1, 2], pos := 0 }) bo).1 ≠
        Except.error Err.panicNotImplemented) ∧
    (∀ (s : Store) (bo : Endianness),
      (read_u64 s (create { data := [1, 2], pos := 0 }) bo).1 ≠
        Except.error Err.panicNotImplemented) ∧
    (∀ (s : Store) (len : ℕ),
      (read_string s (create { data := [1, 2], pos := 0 }) len).1 ≠
        Except.error Err.panicNotImplemented) ∧
    (∀ (s : Store) (p : ℕ),
      (seek s (create { data := [1, 2], pos := 0 }) p).1 ≠
        Except.error Err.panicNotImplemented) :=
  reachable_file_backed_no_panic { data := [1, 2], pos := 0 }
    (create { data := [1, 2], pos := 0 }) Reachable.root

/-- C10 (confirmed): whenever `read_u32`, `read_u64`, `read_string` or
`seek` returns an error — in particular from its own bounds or short-read
check — the window (offset, limit and cursor alike) is handed back
unchanged: the cursor is only advanced after every check has passed. -/
theorem failed_op_leaves_window_unchanged (s : Store) (w : Input) (bo : Endianness)
    (len p : ℕ) :
    (∀ e, (read_u32 s w bo).1 = Except.error e → (read_u32 s w bo).2.2 = w) ∧
    (∀ e, (read_u64 s w bo).1 = Except.error e → (read_u64 s w bo).2.2 = w) ∧
    (∀ e, (read_string s w len).1 = Except.error e → (read_string s w len).2.2 = w) ∧
    (∀ e, (seek s w p).1 = Except.error e → (seek s w p).2.2 = w) := by
  have h32 : (read_u32 s w bo).2.2 = w ∨ ∃ v, (read_u32 s w bo).1 = Except.ok v := by
    unfold read_u32
    repeat' split
    all_goals simp
  have h64 : (read_u64 s w bo).2.2 = w ∨ ∃ v, (read_u64 s w bo).1 = Except.ok v := by
    unfold read_u64
    repeat' split
    all_goals simp
  have hstr : (read_string s w len).2.2 = w ∨
      ∃ v, (read_string s w len).1 = Except.ok v := by
    unfold read_string
    repeat' split
    all_goals simp
  have hseek : (seek s w p).2.2 = w ∨ ∃ v, (seek s w p).1 = Except.ok v := by
    unfold seek
    repeat' split
    all_goals simp
  refine ⟨fun e h => ?_, fun e h => ?_, fun e h => ?_, fun e h => ?_⟩
  · rcases h32 with hw | ⟨v, hv⟩
    · exact hw
    · rw [hv] at h; exact absurd h (by simp)
  · rcases h64 with hw | ⟨v, hv⟩
    · exact hw
    · rw [hv] at h; exact absurd h (by simp)
  · rcases hstr with hw | ⟨v, hv⟩
    · exact hw
    · rw [hv] at h; exact absurd h (by simp)
  · rcases hseek with hw | ⟨v, hv⟩
    · exact hw
    · rw [hv] at h; exact absurd h (by simp)

/-- Witness for C10: a failing `read_u32` on an empty window leaves the
window untouched. -/
theorem failed_op_leaves_window_unchanged_witness :
    (read_u32 { data := [], pos := 0 } (create { data := [], pos := 0 })
        Endianness.Big).1 = Except.error Err.eof ∧
    (read_u32 { data := [], pos := 0 } (create { data := [], pos := 0 })
        Endianness.Big).2.2 = create { data := [], pos := 0 } :=
  ⟨rfl, (failed_op_leaves_window_unchanged { data := [], pos := 0 }
    (create { data := [], pos := 0 }) Endianness.Big 0 0).1 Err.eof rfl⟩

/-- A single box of declared 32-bit size `s` (the plain form), tag `moov`,
plus a padding byte. -/
def dataC5small (s : ℕ) : List ℕ := be32 s ++ [109, 111, 111, 118] ++ [0]

/-- A single box of declared 32-bit size 1 (the large-box form) carrying the
64-bit size `S`, tag `moov`, plus a padding byte. -/
def dataC5large (S : ℕ) : List ℕ := be32 1 ++ [109, 111, 111, 118] ++ be64 S ++ [0]

/-- C5 (confirmed): for a box header whose 32-bit big-endian size field is
`s ≠ 1`, the scanner computes the payload length `s - 8`; when the size
field equals 1 it reads an additional 64-bit big-endian size `S` (the store
position advances past it, and the payload starts at offset 16) and the
payload length is `S - 16`.  Observed through the returned section's limit
and offset on a matching first box, for any positive fuel. -/
theorem box_header_payload_length (n s S : ℕ) (h8 : 8 ≤ s) (h32 : s < 2 ^ 32)
    (h16 : 16 ≤ S) (h64 : S < 2 ^ 64) :
    quicktime_search_box (n + 1) { data := dataC5small s, pos := 0 }
        (create { data := dataC5small s, pos := 0 }) [109, 111, 111, 118] =
      some (Except.ok { input := InputData.file, offset := 8, limit := s - 8, cursor := 0 },
        { data := dataC5small s, pos := 8 },
        { input := InputData.file, offset := 0, limit := 9, cursor := 8 }) ∧
    quicktime_search_box (n + 1) { data := dataC5large S, pos := 0 }
        (create { data := dataC5large S, pos := 0 }) [109, 111, 111, 118] =
      some (Except.ok
        { input := InputData.file, offset := 16, limit := S - 16, cursor := 0 },
        { data := dataC5large S, pos := 16 },
        { input := InputData.file, offset := 0, limit := 17, cursor := 16 }) := by
  constructor
  · have hc : fromBeBytes (be32 s) = s := fromBe_be32 s h32
    have hs1 : (fromBeBytes (be32 s) = 1) = False := by
      rw [hc]; simp; omega
    have e1 : read_u32 { data := dataC5small s, pos := 0 }
        (create { data := dataC5small s, pos := 0 }) Endianness.Big =
        (Except.ok (fromBeBytes (be32 s)), { data := dataC5small s, pos := 4 },
          { input := InputData.file, offset := 0, limit := 9, cursor := 4 }) := rfl
    have e2 : read_string { data := dataC5small s, pos := 4 }
        { input := InputData.file, offset := 0, limit := 9, cursor := 4 } 4 =
        (Except.ok [109, 111, 111, 118], { data := dataC5small s, pos := 8 },
          { input := InputData.file, offset := 0, limit := 9, cursor := 8 }) := rfl
    simp only [quicktime_search_box, quicktime_scan_for_box, e1, e2, hs1, if_false,
      section']
    rw [if_pos trivial, hc, sub64_of_le s 8 h8 (by unfold W64; omega)]
    norm_num [add64, W64]
  · have hL : quicktime_search_box (n + 1) { data := dataC5large S, pos := 0 }
        (create { data := dataC5large S, pos := 0 }) [109, 111, 111, 118] =
        some (Except.ok
          { input := InputData.file, offset := 16,
            limit := sub64 (fromBeBytes (be64 S)) 16, cursor := 0 },
          { data := dataC5large S, pos := 16 },
          { input := InputData.file, offset := 0, limit := 17, cursor := 16 }) := rfl
    rw [hL, fromBe_be64 S h64, sub64_of_le S 16 h16 (by unfold W64; omega)]

/-- Witness for C5 at declared sizes 20 (plain) and 100 (large form). -/
theorem box_header_payload_length_witness :
    quicktime_search_box (0 + 1) { data := dataC5small 20, pos := 0 }
        (create { data := dataC5small 20, pos := 0 }) [109, 111, 111, 118] =
      some (Except.ok
        { input := InputData.file, offset := 8, limit := 20 - 8, cursor := 0 },
        { data := dataC5small 20, pos := 8 },
        { input := InputData.file, offset := 0, limit := 9, cursor := 8 }) ∧
    quicktime_search_box (0 + 1) { data := dataC5large 100, pos := 0 }
        (create { data := dataC5large 100, pos := 0 }) [109, 111, 111, 118] =
      some (Except.ok
        { input := InputData.file, offset := 16, limit := 100 - 16, cursor := 0 },
        { data := dataC5large 100, pos := 16 },
        { input := InputData.file, offset := 0, limit := 17, cursor := 16 }) :=
  box_header_payload_length 0 20 100 (by decide) (by decide) (by decide) (by decide)

end QuickTimeExperiment
